import Mathlib

/-!
# Verification of the WebGL fluid-simulation core (`src/index.js`)

Shallow embedding of the numerical solver pipeline of the repository:
diffusion of the two velocity components, divergence, Jacobi pressure
solve, and velocity correction, together with the driver loop of
`render()` and `project()`.

Modelling conventions:
* GLSL `float` values are modelled as exact rationals (`ℚ`); the constants
  written in the source (`0.000016`, `0.000001`, `0.5`, ...) are taken at
  their decimal values.
* A texture is a `Fin 128 → Fin 128 → Cell` grid (`SIM_SIZE = 128`); a
  `Cell` keeps the red and green channels, the only two any shader reads
  (`.x` everywhere, except the Y-diffusion shader which reads `.y`).
  Every fragment shader of the pipeline writes `vec4(value, 0, 0, 1)`,
  i.e. `⟨value, 0⟩` here.
* `texture(...)` lookups use `NEAREST` filtering with `CLAMP_TO_EDGE`
  wrapping, both set on every texture of the program: a lookup at
  texture coordinate `c` reads the cell `⌊c * 128⌋` clamped into
  `[0, 127]`.  A fragment writing cell `(x, y)` has
  `v_texCoord = ((x + 1/2)/128, (y + 1/2)/128)`.
* The double-buffered textures (`velocityX`, `velocityY`, `pressure`)
  are `Bool → Grid` pairs together with the current index
  (`currentX`, `currentY`, and the `index` local of `project()`).
* The seeding function `initializeVelocityTexture` uses `Math.sqrt`; it
  is modelled separately over `ℝ` with `Real.sqrt`.
-/

namespace FluidSim

/-- `SIM_SIZE` constant of the source. -/
def simSize : ℕ := 128

/-- `params.dt = 0.000016`. -/
def simDt : ℚ := 16 / 1000000

/-- `params.diffusion = 0.000001` (the viscosity parameter). -/
def simVisc : ℚ := 1 / 1000000

/-- `params.iterations = 5`: simulation steps per rendered frame. -/
def simIterations : ℕ := 5

/-- The hard-coded bound `20` of the Jacobi loop `for (let i = 0; i < 20; i++)`
in `project()`. -/
def pressureIterationCount : ℕ := 20

/-- One texel: the red and green channels of an RGBA32F cell (the blue and
alpha channels are never read by any shader of the pipeline). -/
structure Cell where
  r : ℚ
  g : ℚ
deriving DecidableEq

/-- A `SIM_SIZE × SIM_SIZE` texture. -/
abbrev Grid := Fin 128 → Fin 128 → Cell

/-- Clamp an integer cell index into `[0, 127]` (`CLAMP_TO_EDGE`). -/
def ci (t : ℤ) : Fin 128 := ⟨(max 0 (min 127 t)).toNat, by omega⟩

/-- `NEAREST`/`CLAMP_TO_EDGE` texture lookup: texture coordinate to cell
index. -/
def texIdx (c : ℚ) : Fin 128 := ci ⌊c * 128⌋

/-- The texture coordinate interpolated at the fragment that writes cell
`x` (along one axis). -/
def coord (x : Fin 128) : ℚ := ((x.val : ℚ) + 1 / 2) / 128

/-- `texture(G, (cx, cy)).x`. -/
def sampleR (G : Grid) (cx cy : ℚ) : ℚ := (G (texIdx cx) (texIdx cy)).r

/-- `texture(G, (cx, cy)).y`. -/
def sampleG (G : Grid) (cx cy : ℚ) : ℚ := (G (texIdx cx) (texIdx cy)).g

/-- `u_size` bound to the X-diffusion program in `render()`: `SIM_SIZE`. -/
def diffXSizeU : ℚ := 128

/-- `u_visc` bound to the X-diffusion program in `render()`: the source
passes `SIM_SIZE`, not `params.diffusion`. -/
def diffXViscU : ℚ := 128

/-- `u_size` bound to the Y-diffusion program in `render()`: the source
passes `canvas.width`, a display quantity `W`, not `SIM_SIZE`. -/
def diffYSizeU (W : ℚ) : ℚ := W

/-- `u_visc` bound to the Y-diffusion program in `render()`:
`params.diffusion`. -/
def diffYViscU : ℚ := simVisc

/-- `u_size` bound to the divergence, pressure and correction programs in
`project()`: `SIM_SIZE`. -/
def projSizeU : ℚ := 128

/-- The coefficient `a = u_dt * u_visc * u_size * u_size` of the
X-diffusion shader, with the uniforms as bound by `render()`. -/
def aX : ℚ := simDt * diffXViscU * (diffXSizeU * diffXSizeU)

/-- The coefficient `a = u_dt * u_visc * u_size * u_size` of the
Y-diffusion shader, with the uniforms as bound by `render()`. -/
def aY (W : ℚ) : ℚ := simDt * diffYViscU * (diffYSizeU W * diffYSizeU W)

/-- `diffusionXShaderSource`: samples the red channel at the centre and at
`±texelSize` offsets (with `texelSize = 1/u_size`), and writes
`vec4((center + a*(left+right+top+bottom)) / (1 + 4a), 0, 0, 1)`. -/
def diffuseX (v : Grid) : Grid := fun x y =>
  let ts : ℚ := 1 / diffXSizeU
  let center := sampleR v (coord x) (coord y)
  let left := sampleR v (coord x - ts) (coord y)
  let right := sampleR v (coord x + ts) (coord y)
  let top := sampleR v (coord x) (coord y + ts)
  let bottom := sampleR v (coord x) (coord y - ts)
  ⟨(center + aX * (left + right + top + bottom)) / (1 + 4 * aX), 0⟩

/-- `diffusionYShaderSource`: identical formula, but it samples the GREEN
channel (`.y`) of its input, and its `u_size` is the canvas width `W`, so
its texel offsets are `1/W` in texture coordinates. -/
def diffuseY (W : ℚ) (v : Grid) : Grid := fun x y =>
  let ts : ℚ := 1 / diffYSizeU W
  let center := sampleG v (coord x) (coord y)
  let left := sampleG v (coord x - ts) (coord y)
  let right := sampleG v (coord x + ts) (coord y)
  let top := sampleG v (coord x) (coord y + ts)
  let bottom := sampleG v (coord x) (coord y - ts)
  ⟨(center + aY W * (left + right + top + bottom)) / (1 + 4 * aY W), 0⟩

/-- `divergenceShaderSource`:
`-0.5 * (x1 - x0 + y1 - y0) / u_size` from the two velocity textures. -/
def divergenceK (vx vy : Grid) : Grid := fun x y =>
  let ts : ℚ := 1 / projSizeU
  let x0 := sampleR vx (coord x - ts) (coord y)
  let x1 := sampleR vx (coord x + ts) (coord y)
  let y0 := sampleR vy (coord x) (coord y - ts)
  let y1 := sampleR vy (coord x) (coord y + ts)
  ⟨-(1 / 2) * (x1 - x0 + y1 - y0) / projSizeU, 0⟩

/-- `pressureSolverShaderSource`:
`(divergence + p1 + p2 + p3 + p4) / 4` where `p1..p4` are the left, right,
bottom and top neighbours of the previous pressure buffer. -/
def jacobiK (d p : Grid) : Grid := fun x y =>
  let ts : ℚ := 1 / projSizeU
  let p1 := sampleR p (coord x - ts) (coord y)
  let p2 := sampleR p (coord x + ts) (coord y)
  let p3 := sampleR p (coord x) (coord y - ts)
  let p4 := sampleR p (coord x) (coord y + ts)
  let dv := sampleR d (coord x) (coord y)
  ⟨(dv + p1 + p2 + p3 + p4) / 4, 0⟩

/-- `velocityCorrectionShaderSource`:
`velocity - 0.5 * (p2 - p1) * u_size`, with the pressure neighbour pair
taken along x when `u_isX` and along y otherwise. -/
def correctK (isX : Bool) (v p : Grid) : Grid := fun x y =>
  let ts : ℚ := 1 / projSizeU
  let vel := sampleR v (coord x) (coord y)
  let p1 := if isX then sampleR p (coord x - ts) (coord y)
            else sampleR p (coord x) (coord y - ts)
  let p2 := if isX then sampleR p (coord x + ts) (coord y)
            else sampleR p (coord x) (coord y + ts)
  ⟨vel - (1 / 2) * (p2 - p1) * projSizeU, 0⟩

/-- The mutable state of the simulation: the two double-buffered velocity
textures with their indices `currentX`/`currentY`, the double-buffered
pressure textures, and the divergence texture. -/
structure SimState where
  vx : Bool → Grid
  vy : Bool → Grid
  p : Bool → Grid
  dv : Grid
  ix : Bool
  iy : Bool

/-- The kernel dispatches of the pipeline, for the execution trace. -/
inductive Op where
  | diffX
  | diffY
  | divg
  | psweep
  | corrX
  | corrY
deriving DecidableEq

/-- Number of occurrences of an `Op` in a trace. -/
def opCount (o : Op) : List Op → ℕ
  | [] => 0
  | a :: l => (if a = o then 1 else 0) + opCount o l

/-- One iteration of the Jacobi loop of `project()` on the pressure
buffer pair and the `index` local: render the pressure shader (reading
buffer `index`, the divergence being fixed) into buffer `index ^ 1`, then
`index ^= 1`. -/
def pLoopBody (d : Grid) (t : (Bool → Grid) × Bool) : (Bool → Grid) × Bool :=
  (Function.update t.1 (!t.2) (jacobiK d (t.1 t.2)), !t.2)

/-- The Jacobi loop of `project()`, with its execution trace. -/
def pLoop (d : Grid) : ℕ → (Bool → Grid) × Bool → ((Bool → Grid) × Bool) × List Op
  | 0, t => (t, [])
  | n + 1, t =>
    let u := pLoop d n (pLoopBody d t)
    (u.1, Op.psweep :: u.2)

/-- `project()`: divergence of the two current velocity buffers, 20 Jacobi
sweeps on the pressure pair starting from `index = 0`, then the X and the
Y velocity corrections (each reading the pressure buffer `index` left by
the loop, writing the inactive velocity buffer, and flipping its own
current index). -/
def projectL (s : SimState) : SimState × List Op :=
  let d := divergenceK (s.vx s.ix) (s.vy s.iy)
  let u := pLoop d pressureIterationCount (s.p, false)
  let pb := u.1.1
  let idx := u.1.2
  let vx1 := Function.update s.vx (!s.ix) (correctK true (s.vx s.ix) (pb idx))
  let vy1 := Function.update s.vy (!s.iy) (correctK false (s.vy s.iy) (pb idx))
  (⟨vx1, vy1, pb, d, !s.ix, !s.iy⟩, Op.divg :: (u.2 ++ [Op.corrX, Op.corrY]))

/-- The state part of `project()`. -/
def project (s : SimState) : SimState := (projectL s).1

/-- The diffusion phase of one iteration of the loop of `render()`:
diffuse X into the inactive X buffer and flip `currentX`, then diffuse Y
into the inactive Y buffer and flip `currentY`.  `W` is `canvas.width`,
which `render()` hands to the Y pass as `u_size`. -/
def diffused (W : ℚ) (s : SimState) : SimState :=
  { s with
    vx := Function.update s.vx (!s.ix) (diffuseX (s.vx s.ix))
    ix := !s.ix
    vy := Function.update s.vy (!s.iy) (diffuseY W (s.vy s.iy))
    iy := !s.iy }

/-- One iteration of the loop of `render()` (one simulated step):
X diffusion, Y diffusion, then `project()`; with its trace. -/
def stepL (W : ℚ) (s : SimState) : SimState × List Op :=
  let u := projectL (diffused W s)
  (u.1, Op.diffX :: Op.diffY :: u.2)

/-- The state part of one simulated step. -/
def step (W : ℚ) (s : SimState) : SimState := (stepL W s).1

/-- The loop of `render()`: `params.iterations` consecutive steps, with
the concatenated trace. -/
def frameL (W : ℚ) : ℕ → SimState → SimState × List Op
  | 0, s => (s, [])
  | n + 1, s =>
    let u := stepL W s
    let v := frameL W n u.1
    (v.1, u.2 ++ v.2)

/-- The divergence grid `project()` computes on a state: a function of the
two currently active velocity buffers only. -/
def divOf (s : SimState) : Grid := divergenceK (s.vx s.ix) (s.vy s.iy)

/-- The pressure grid the corrections of `project()` read: the 20-fold
Jacobi sweep of the slot-`false` pressure buffer. -/
def finalP (s : SimState) : Grid :=
  (jacobiK (divOf s))^[pressureIterationCount] (s.p false)

/-- All green channels of a state vanish (what the seeding and every
kernel output guarantee). -/
def greenZero (s : SimState) : Prop :=
  (∀ b x y, (s.vx b x y).g = 0) ∧ (∀ b x y, (s.vy b x y).g = 0) ∧
    (∀ b x y, (s.p b x y).g = 0) ∧ (∀ x y, (s.dv x y).g = 0)

/-- The all-zero grid (a freshly allocated RGBA32F texture, alpha and blue
dropped). -/
def zeroGrid : Grid := fun _ _ => ⟨0, 0⟩

/-- A state with every buffer zero. -/
def sZero : SimState :=
  ⟨fun _ => zeroGrid, fun _ => zeroGrid, fun _ => zeroGrid, zeroGrid, false, false⟩

/-- The X-velocity grid `vx(x, y) = x * y` (red channel; green zero). -/
def vxInit : Grid := fun x y => ⟨(x.val : ℚ) * (y.val : ℚ), 0⟩

/-- A concrete state: X velocity `x * y` in the active buffer, everything
else zero. All green channels vanish, exactly as in every reachable state
of the program. -/
def sCross : SimState :=
  ⟨fun b => match b with | false => vxInit | true => zeroGrid,
    fun _ => zeroGrid, fun _ => zeroGrid, zeroGrid, false, false⟩

/-- The divergence grid arising in the step on `sCross` (canvas width
1920). -/
def cexD : Grid := divergenceK (diffuseX vxInit) (diffuseY 1920 zeroGrid)

/-- The Jacobi iterates on that divergence, from the zero pressure
buffer. -/
def cexQ (k : ℕ) : Grid := (jacobiK cexD)^[k] zeroGrid

/-- `Math.floor(SIM_SIZE / 2)` : the seed centre coordinate. -/
def centerCoord : ℕ := simSize / 2

/-- `splatRadius = 20`. -/
def splatRadius : ℝ := 20

/-- `splatStrength = 1.0`. -/
def splatStrength : ℝ := 1

/-- The Euclidean distance of cell `(x, y)` from the seed centre, as
computed by `initializeVelocityTexture` (`Math.sqrt(dx*dx + dy*dy)`). -/
noncomputable def seedDist (x y : Fin 128) : ℝ :=
  Real.sqrt (((x.val : ℝ) - (centerCoord : ℝ)) * ((x.val : ℝ) - (centerCoord : ℝ)) +
    ((y.val : ℝ) - (centerCoord : ℝ)) * ((y.val : ℝ) - (centerCoord : ℝ)))

/-- The red-channel value `initializeVelocityTexture` writes at cell
`(x, y)`: `strength * (1 - distance/radius)` inside the splat radius and
`0` outside (green, blue are written `0`, alpha `1`). -/
noncomputable def seedVal (x y : Fin 128) : ℝ :=
  if seedDist x y < splatRadius then
    splatStrength * (1 - seedDist x y / splatRadius)
  else 0

/-! ## Index and sampling lemmas -/

theorem ci_self (x : Fin 128) : ci (x.val : ℤ) = x := by
  apply Fin.ext
  have hx := x.isLt
  simp only [ci]
  omega

theorem ci_val (t : ℤ) (h0 : 0 ≤ t) (h1 : t ≤ 127) : ((ci t).val : ℤ) = t := by
  simp only [ci]
  omega

theorem ci_val_q (t : ℤ) (h0 : 0 ≤ t) (h1 : t ≤ 127) : ((ci t).val : ℚ) = (t : ℚ) := by
  have h := ci_val t h0 h1
  exact_mod_cast h

theorem texIdx_coord (x : Fin 128) : texIdx (coord x) = x := by
  have hm : coord x * 128 = (x.val : ℚ) + 1 / 2 := by unfold coord; ring
  have hf : ⌊(x.val : ℚ) + 1 / 2⌋ = (x.val : ℤ) := by
    rw [Int.floor_eq_iff]
    constructor <;> push_cast <;> linarith
  rw [texIdx, hm, hf, ci_self]

theorem texIdx_coord_add (x : Fin 128) :
    texIdx (coord x + 1 / 128) = ci ((x.val : ℤ) + 1) := by
  have hm : (coord x + 1 / 128) * 128 = (x.val : ℚ) + 3 / 2 := by unfold coord; ring
  have hf : ⌊(x.val : ℚ) + 3 / 2⌋ = (x.val : ℤ) + 1 := by
    rw [Int.floor_eq_iff]
    constructor <;> push_cast <;> linarith
  rw [texIdx, hm, hf]

theorem texIdx_coord_sub (x : Fin 128) :
    texIdx (coord x - 1 / 128) = ci ((x.val : ℤ) - 1) := by
  have hm : (coord x - 1 / 128) * 128 = (x.val : ℚ) - 1 / 2 := by unfold coord; ring
  have hf : ⌊(x.val : ℚ) - 1 / 2⌋ = (x.val : ℤ) - 1 := by
    rw [Int.floor_eq_iff]
    constructor <;> push_cast <;> linarith
  rw [texIdx, hm, hf]

theorem sampleR_center (G : Grid) (x y : Fin 128) :
    sampleR G (coord x) (coord y) = (G x y).r := by
  rw [sampleR, texIdx_coord, texIdx_coord]

theorem sampleR_xm (G : Grid) (x y : Fin 128) :
    sampleR G (coord x - 1 / 128) (coord y) = (G (ci ((x.val : ℤ) - 1)) y).r := by
  rw [sampleR, texIdx_coord_sub, texIdx_coord]

theorem sampleR_xp (G : Grid) (x y : Fin 128) :
    sampleR G (coord x + 1 / 128) (coord y) = (G (ci ((x.val : ℤ) + 1)) y).r := by
  rw [sampleR, texIdx_coord_add, texIdx_coord]

theorem sampleR_ym (G : Grid) (x y : Fin 128) :
    sampleR G (coord x) (coord y - 1 / 128) = (G x (ci ((y.val : ℤ) - 1))).r := by
  rw [sampleR, texIdx_coord_sub, texIdx_coord]

theorem sampleR_yp (G : Grid) (x y : Fin 128) :
    sampleR G (coord x) (coord y + 1 / 128) = (G x (ci ((y.val : ℤ) + 1))).r := by
  rw [sampleR, texIdx_coord_add, texIdx_coord]

theorem sampleG_of_greens (G : Grid) (h : ∀ a b, (G a b).g = 0) (cx cy : ℚ) :
    sampleG G cx cy = 0 := h _ _

/-! ## Pointwise forms of the kernels -/

theorem diffuseX_apply (v : Grid) (x y : Fin 128) :
    diffuseX v x y =
      ⟨((v x y).r + aX * ((v (ci ((x.val : ℤ) - 1)) y).r + (v (ci ((x.val : ℤ) + 1)) y).r +
          (v x (ci ((y.val : ℤ) + 1))).r + (v x (ci ((y.val : ℤ) - 1))).r)) / (1 + 4 * aX),
        0⟩ := by
  simp only [diffuseX, diffXSizeU, sampleR_center, sampleR_xm, sampleR_xp, sampleR_yp,
    sampleR_ym]

theorem diffuseY_of_greens (W : ℚ) (v : Grid) (h : ∀ a b, (v a b).g = 0) (x y : Fin 128) :
    diffuseY W v x y = ⟨0, 0⟩ := by
  simp [diffuseY, sampleG_of_greens v h]

theorem divergenceK_apply (vx vy : Grid) (x y : Fin 128) :
    divergenceK vx vy x y =
      ⟨-(1 / 2) * ((vx (ci ((x.val : ℤ) + 1)) y).r - (vx (ci ((x.val : ℤ) - 1)) y).r +
          (vy x (ci ((y.val : ℤ) + 1))).r - (vy x (ci ((y.val : ℤ) - 1))).r) / 128,
        0⟩ := by
  simp only [divergenceK, projSizeU, sampleR_xm, sampleR_xp, sampleR_yp, sampleR_ym]

theorem jacobiK_apply (d p : Grid) (x y : Fin 128) :
    jacobiK d p x y =
      ⟨((d x y).r + (p (ci ((x.val : ℤ) - 1)) y).r + (p (ci ((x.val : ℤ) + 1)) y).r +
          (p x (ci ((y.val : ℤ) - 1))).r + (p x (ci ((y.val : ℤ) + 1))).r) / 4,
        0⟩ := by
  simp only [jacobiK, projSizeU, sampleR_center, sampleR_xm, sampleR_xp, sampleR_yp,
    sampleR_ym]

theorem correctK_x_apply (v p : Grid) (x y : Fin 128) :
    correctK true v p x y =
      ⟨(v x y).r -
          (1 / 2) * ((p (ci ((x.val : ℤ) + 1)) y).r - (p (ci ((x.val : ℤ) - 1)) y).r) * 128,
        0⟩ := by
  simp only [correctK, projSizeU, if_true, sampleR_center, sampleR_xm, sampleR_xp]

theorem correctK_y_apply (v p : Grid) (x y : Fin 128) :
    correctK false v p x y =
      ⟨(v x y).r -
          (1 / 2) * ((p x (ci ((y.val : ℤ) + 1))).r - (p x (ci ((y.val : ℤ) - 1))).r) * 128,
        0⟩ := by
  simp only [correctK, projSizeU, Bool.false_eq_true, if_false, sampleR_center, sampleR_ym,
    sampleR_yp]

theorem diffuseX_green (v : Grid) (x y : Fin 128) : (diffuseX v x y).g = 0 := rfl

theorem diffuseY_green (W : ℚ) (v : Grid) (x y : Fin 128) : (diffuseY W v x y).g = 0 := rfl

theorem divergenceK_green (vx vy : Grid) (x y : Fin 128) : (divergenceK vx vy x y).g = 0 := rfl

theorem jacobiK_green (d p : Grid) (x y : Fin 128) : (jacobiK d p x y).g = 0 := rfl

theorem correctK_green (b : Bool) (v p : Grid) (x y : Fin 128) : (correctK b v p x y).g = 0 := rfl

/-! ## Double-buffer update lemmas -/

theorem upd_at (f : Bool → Grid) (b : Bool) (G : Grid) : Function.update f b G b = G :=
  Function.update_same b G f

theorem upd_other (f : Bool → Grid) (b : Bool) (G : Grid) :
    Function.update f b G (!b) = f (!b) :=
  Function.update_noteq (by cases b <;> simp) G f

theorem upd_other' (f : Bool → Grid) (b : Bool) (G : Grid) :
    Function.update f (!b) G b = f b :=
  Function.update_noteq (by cases b <;> simp) G f

theorem upd_green (f : Bool → Grid) (c : Bool) (G : Grid) (hf : ∀ b x y, (f b x y).g = 0)
    (hG : ∀ x y, (G x y).g = 0) : ∀ b x y, (Function.update f c G b x y).g = 0 := by
  intro b x y
  by_cases hb : b = c
  · subst hb
    rw [upd_at]
    exact hG x y
  · rw [Function.update_noteq hb]
    exact hf b x y

/-! ## The Jacobi loop of `project()` -/

theorem pLoop_fst (d : Grid) (n : ℕ) : ∀ t, (pLoop d n t).1 = (pLoopBody d)^[n] t := by
  induction n with
  | zero => intro t; rfl
  | succ n ih =>
    intro t
    show (pLoop d n (pLoopBody d t)).1 = _
    rw [Function.iterate_succ_apply]
    exact ih (pLoopBody d t)

theorem pLoop_snd (d : Grid) (n : ℕ) : ∀ t, (pLoop d n t).2 = List.replicate n Op.psweep := by
  induction n with
  | zero => intro t; rfl
  | succ n ih =>
    intro t
    show Op.psweep :: (pLoop d n (pLoopBody d t)).2 = _
    rw [ih (pLoopBody d t), List.replicate_succ]

theorem pLoopBody_writes (d : Grid) (t : (Bool → Grid) × Bool) :
    (pLoopBody d t).1 (!t.2) = jacobiK d (t.1 t.2) := by
  simp only [pLoopBody]
  exact upd_at t.1 (!t.2) _

theorem pLoopBody_keeps_read (d : Grid) (t : (Bool → Grid) × Bool) :
    (pLoopBody d t).1 t.2 = t.1 t.2 := by
  simp only [pLoopBody]
  exact upd_other' t.1 t.2 _

theorem pLoopBody_idx (d : Grid) (t : (Bool → Grid) × Bool) : (pLoopBody d t).2 = !t.2 := rfl

theorem pIter_idx (d : Grid) (n : ℕ) :
    ∀ t : (Bool → Grid) × Bool,
      ((pLoopBody d)^[n] t).2 = if n % 2 = 0 then t.2 else !t.2 := by
  induction n with
  | zero => intro t; simp
  | succ n ih =>
    intro t
    rw [Function.iterate_succ_apply', pLoopBody_idx, ih t]
    by_cases hn : n % 2 = 0
    · have h1 : ¬((n + 1) % 2 = 0) := by omega
      simp [hn, h1]
    · have h1 : (n + 1) % 2 = 0 := by omega
      simp [hn, h1]

theorem pIter_read (d : Grid) (n : ℕ) :
    ∀ (buf : Bool → Grid) (i : Bool),
      ((pLoopBody d)^[n] (buf, i)).1 ((pLoopBody d)^[n] (buf, i)).2 =
        (jacobiK d)^[n] (buf i) := by
  induction n with
  | zero => intro buf i; rfl
  | succ n ih =>
    intro buf i
    rw [Function.iterate_succ_apply' (pLoopBody d), Function.iterate_succ_apply' (jacobiK d)]
    rw [pLoopBody_idx, pLoopBody_writes, ih buf i]

theorem pIter20_idx (d : Grid) (buf : Bool → Grid) :
    ((pLoopBody d)^[pressureIterationCount] (buf, false)).2 = false := by
  rw [pIter_idx]
  norm_num [pressureIterationCount]

theorem pIter20_slot_false (d : Grid) (buf : Bool → Grid) :
    ((pLoopBody d)^[pressureIterationCount] (buf, false)).1 false =
      (jacobiK d)^[pressureIterationCount] (buf false) := by
  have h := pIter_read d pressureIterationCount buf false
  rw [pIter20_idx d buf] at h
  exact h

/-! ## Structure of `project()` and of one step -/

theorem project_eq (s : SimState) :
    project s =
      ⟨Function.update s.vx (!s.ix) (correctK true (s.vx s.ix) (finalP s)),
        Function.update s.vy (!s.iy) (correctK false (s.vy s.iy) (finalP s)),
        ((pLoopBody (divOf s))^[pressureIterationCount] (s.p, false)).1,
        divOf s, !s.ix, !s.iy⟩ := by
  have h := pIter_read (divOf s) pressureIterationCount s.p false
  rw [pIter20_idx (divOf s) s.p] at h
  simp only [project, projectL, pLoop_fst, divOf] at *
  rw [pIter20_idx] at *
  rw [h]
  rfl

theorem projectL_snd (s : SimState) :
    (projectL s).2 =
      Op.divg :: (List.replicate pressureIterationCount Op.psweep ++ [Op.corrX, Op.corrY]) := by
  simp only [projectL, pLoop_snd]

theorem diffused_ix (W : ℚ) (s : SimState) : (diffused W s).ix = !s.ix := rfl

theorem diffused_iy (W : ℚ) (s : SimState) : (diffused W s).iy = !s.iy := rfl

theorem diffused_p (W : ℚ) (s : SimState) : (diffused W s).p = s.p := rfl

theorem diffused_vx_active (W : ℚ) (s : SimState) :
    (diffused W s).vx ((diffused W s).ix) = diffuseX (s.vx s.ix) := upd_at s.vx (!s.ix) _

theorem diffused_vy_active (W : ℚ) (s : SimState) :
    (diffused W s).vy ((diffused W s).iy) = diffuseY W (s.vy s.iy) := upd_at s.vy (!s.iy) _

theorem step_eq_project (W : ℚ) (s : SimState) : step W s = project (diffused W s) := rfl

theorem stepL_snd (W : ℚ) (s : SimState) :
    (stepL W s).2 =
      Op.diffX :: Op.diffY :: Op.divg ::
        (List.replicate pressureIterationCount Op.psweep ++ [Op.corrX, Op.corrY]) := by
  show Op.diffX :: Op.diffY :: (projectL (diffused W s)).2 = _
  rw [projectL_snd]

theorem frameL_snd (W : ℚ) (n : ℕ) :
    ∀ s : SimState,
      (frameL W n s).2 =
        List.flatten (List.replicate n
          (Op.diffX :: Op.diffY :: Op.divg ::
            (List.replicate pressureIterationCount Op.psweep ++ [Op.corrX, Op.corrY]))) := by
  induction n with
  | zero => intro s; rfl
  | succ n ih =>
    intro s
    show (stepL W s).2 ++ (frameL W n (stepL W s).1).2 = _
    rw [stepL_snd, ih, List.replicate_succ, List.flatten_cons]

theorem diffuseX_r (v : Grid) (x y : Fin 128) :
    (diffuseX v x y).r =
      ((v x y).r + aX * ((v (ci ((x.val : ℤ) - 1)) y).r + (v (ci ((x.val : ℤ) + 1)) y).r +
          (v x (ci ((y.val : ℤ) + 1))).r + (v x (ci ((y.val : ℤ) - 1))).r)) / (1 + 4 * aX) := by
  rw [diffuseX_apply]

theorem divergenceK_r (vx vy : Grid) (x y : Fin 128) :
    (divergenceK vx vy x y).r =
      -(1 / 2) * ((vx (ci ((x.val : ℤ) + 1)) y).r - (vx (ci ((x.val : ℤ) - 1)) y).r +
          (vy x (ci ((y.val : ℤ) + 1))).r - (vy x (ci ((y.val : ℤ) - 1))).r) / 128 := by
  rw [divergenceK_apply]

theorem jacobiK_r (d p : Grid) (x y : Fin 128) :
    (jacobiK d p x y).r =
      ((d x y).r + (p (ci ((x.val : ℤ) - 1)) y).r + (p (ci ((x.val : ℤ) + 1)) y).r +
          (p x (ci ((y.val : ℤ) - 1))).r + (p x (ci ((y.val : ℤ) + 1))).r) / 4 := by
  rw [jacobiK_apply]

theorem correctK_x_r (v p : Grid) (x y : Fin 128) :
    (correctK true v p x y).r =
      (v x y).r -
        (1 / 2) * ((p (ci ((x.val : ℤ) + 1)) y).r - (p (ci ((x.val : ℤ) - 1)) y).r) * 128 := by
  rw [correctK_x_apply]

theorem correctK_y_r (v p : Grid) (x y : Fin 128) :
    (correctK false v p x y).r =
      (v x y).r -
        (1 / 2) * ((p x (ci ((y.val : ℤ) + 1))).r - (p x (ci ((y.val : ℤ) - 1))).r) * 128 := by
  rw [correctK_y_apply]

theorem project_vx_active (s : SimState) :
    (project s).vx ((project s).ix) = correctK true (s.vx s.ix) (finalP s) := by
  rw [project_eq]
  exact upd_at s.vx (!s.ix) _

theorem project_vy_active (s : SimState) :
    (project s).vy ((project s).iy) = correctK false (s.vy s.iy) (finalP s) := by
  rw [project_eq]
  exact upd_at s.vy (!s.iy) _

theorem pIter_green (d : Grid) (n : ℕ) :
    ∀ t : (Bool → Grid) × Bool, (∀ b x y, (t.1 b x y).g = 0) →
      ∀ b x y, (((pLoopBody d)^[n] t).1 b x y).g = 0 := by
  induction n with
  | zero => intro t ht; exact ht
  | succ n ih =>
    intro t ht
    rw [Function.iterate_succ_apply]
    exact ih (pLoopBody d t)
      (upd_green t.1 (!t.2) _ ht (fun x y => jacobiK_green d _ x y))

/-! ## The `vx = x * y` state: exact values through one whole step

On the state `sCross` (X velocity `x * y`, everything else zero, all green
channels zero), every quantity of one step has a closed form on a region
that shrinks by one cell per Jacobi sweep, because no clamped read ever
matters there: the X diffusion fixes `x * y` on `[1,126]²`, the divergence
is `-y/128` on `[2,125] × [1,126]`, and `k` Jacobi sweeps give pressure
`-k*y/512` on `[1+k, 126-k]²`.  The Y correction then writes
`0 - 0.5 * (p[y+1] - p[y-1]) * 128 = 5` at the centre cell `(64, 64)`. -/

theorem zeroGrid_green (a b : Fin 128) : (zeroGrid a b).g = 0 := rfl

theorem sCross_green : greenZero sCross := by
  refine ⟨?_, ?_, ?_, ?_⟩
  · intro b x y
    cases b <;> rfl
  · intro b x y
    rfl
  · intro b x y
    rfl
  · intro x y
    rfl

theorem cexDY (x y : Fin 128) : diffuseY 1920 zeroGrid x y = ⟨0, 0⟩ :=
  diffuseY_of_greens 1920 zeroGrid zeroGrid_green x y

theorem cexDY_r (x y : Fin 128) : (diffuseY 1920 zeroGrid x y).r = 0 := by
  rw [cexDY]

theorem dX_interior (x y : Fin 128) (hx1 : 1 ≤ x.val) (hx2 : x.val ≤ 126)
    (hy1 : 1 ≤ y.val) (hy2 : y.val ≤ 126) :
    (diffuseX vxInit x y).r = (x.val : ℚ) * (y.val : ℚ) := by
  have haX : (1 : ℚ) + 4 * aX ≠ 0 := by
    norm_num [aX, simDt, diffXViscU, diffXSizeU]
  have e1 : ((ci ((x.val : ℤ) - 1)).val : ℚ) = (x.val : ℚ) - 1 := by
    rw [ci_val_q ((x.val : ℤ) - 1) (by omega) (by omega)]
    push_cast
    ring
  have e2 : ((ci ((x.val : ℤ) + 1)).val : ℚ) = (x.val : ℚ) + 1 := by
    rw [ci_val_q ((x.val : ℤ) + 1) (by omega) (by omega)]
    push_cast
    ring
  have e3 : ((ci ((y.val : ℤ) - 1)).val : ℚ) = (y.val : ℚ) - 1 := by
    rw [ci_val_q ((y.val : ℤ) - 1) (by omega) (by omega)]
    push_cast
    ring
  have e4 : ((ci ((y.val : ℤ) + 1)).val : ℚ) = (y.val : ℚ) + 1 := by
    rw [ci_val_q ((y.val : ℤ) + 1) (by omega) (by omega)]
    push_cast
    ring
  rw [diffuseX_r]
  simp only [vxInit]
  rw [e1, e2, e3, e4]
  field_simp
  ring

theorem cexD_interior (x y : Fin 128) (hx1 : 2 ≤ x.val) (hx2 : x.val ≤ 125)
    (hy1 : 1 ≤ y.val) (hy2 : y.val ≤ 126) :
    (cexD x y).r = -(y.val : ℚ) / 128 := by
  have hxp : ((ci ((x.val : ℤ) + 1)).val : ℤ) = (x.val : ℤ) + 1 :=
    ci_val _ (by omega) (by omega)
  have hxm : ((ci ((x.val : ℤ) - 1)).val : ℤ) = (x.val : ℤ) - 1 :=
    ci_val _ (by omega) (by omega)
  have hp := dX_interior (ci ((x.val : ℤ) + 1)) y (by omega) (by omega) hy1 hy2
  have hm := dX_interior (ci ((x.val : ℤ) - 1)) y (by omega) (by omega) hy1 hy2
  have ep : ((ci ((x.val : ℤ) + 1)).val : ℚ) = (x.val : ℚ) + 1 := by
    rw [ci_val_q ((x.val : ℤ) + 1) (by omega) (by omega)]
    push_cast
    ring
  have em : ((ci ((x.val : ℤ) - 1)).val : ℚ) = (x.val : ℚ) - 1 := by
    rw [ci_val_q ((x.val : ℤ) - 1) (by omega) (by omega)]
    push_cast
    ring
  rw [ep] at hp
  rw [em] at hm
  simp only [cexD]
  rw [divergenceK_r, hp, hm, cexDY_r, cexDY_r]
  ring

theorem cexQ_formula (k : ℕ) :
    ∀ x y : Fin 128, 1 + k ≤ x.val → x.val + k ≤ 126 → 1 + k ≤ y.val → y.val + k ≤ 126 →
      (cexQ k x y).r = -(k : ℚ) * (y.val : ℚ) / 512 := by
  induction k with
  | zero =>
    intro x y _ _ _ _
    show (zeroGrid x y).r = _
    simp [zeroGrid]
  | succ k ih =>
    intro x y hx1 hx2 hy1 hy2
    have hstep : cexQ (k + 1) x y = jacobiK cexD (cexQ k) x y := by
      simp only [cexQ, Function.iterate_succ_apply']
    have hd := cexD_interior x y (by omega) (by omega) (by omega) (by omega)
    have hxm : ((ci ((x.val : ℤ) - 1)).val : ℤ) = (x.val : ℤ) - 1 :=
      ci_val _ (by omega) (by omega)
    have hxp : ((ci ((x.val : ℤ) + 1)).val : ℤ) = (x.val : ℤ) + 1 :=
      ci_val _ (by omega) (by omega)
    have hym : ((ci ((y.val : ℤ) - 1)).val : ℤ) = (y.val : ℤ) - 1 :=
      ci_val _ (by omega) (by omega)
    have hyq : ((ci ((y.val : ℤ) + 1)).val : ℤ) = (y.val : ℤ) + 1 :=
      ci_val _ (by omega) (by omega)
    have h1 := ih (ci ((x.val : ℤ) - 1)) y (by omega) (by omega) (by omega) (by omega)
    have h2 := ih (ci ((x.val : ℤ) + 1)) y (by omega) (by omega) (by omega) (by omega)
    have h3 := ih x (ci ((y.val : ℤ) - 1)) (by omega) (by omega) (by omega) (by omega)
    have h4 := ih x (ci ((y.val : ℤ) + 1)) (by omega) (by omega) (by omega) (by omega)
    have eym : ((ci ((y.val : ℤ) - 1)).val : ℚ) = (y.val : ℚ) - 1 := by
      rw [ci_val_q ((y.val : ℤ) - 1) (by omega) (by omega)]
      push_cast
      ring
    have eyp : ((ci ((y.val : ℤ) + 1)).val : ℚ) = (y.val : ℚ) + 1 := by
      rw [ci_val_q ((y.val : ℤ) + 1) (by omega) (by omega)]
      push_cast
      ring
    rw [eym] at h3
    rw [eyp] at h4
    rw [hstep, jacobiK_r, hd, h1, h2, h3, h4]
    push_cast
    ring

theorem sCross_rendered :
    ((step 1920 sCross).vy ((step 1920 sCross).iy) (64 : Fin 128) (64 : Fin 128)).r = 5 := by
  rw [step_eq_project, project_vy_active, correctK_y_r]
  have hz : ((diffused 1920 sCross).vy ((diffused 1920 sCross).iy) (64 : Fin 128)
      (64 : Fin 128)).r = 0 := cexDY_r 64 64
  have hfin : finalP (diffused 1920 sCross) = cexQ pressureIterationCount := rfl
  have e1 : ci ((((64 : Fin 128)).val : ℤ) + 1) = (⟨65, by norm_num⟩ : Fin 128) := by decide
  have e2 : ci ((((64 : Fin 128)).val : ℤ) - 1) = (⟨63, by norm_num⟩ : Fin 128) := by decide
  rw [hz, hfin, e1, e2]
  have hq1 := cexQ_formula pressureIterationCount (64 : Fin 128) (⟨65, by norm_num⟩ : Fin 128)
    (by decide) (by decide) (by decide) (by decide)
  have hq2 := cexQ_formula pressureIterationCount (64 : Fin 128) (⟨63, by norm_num⟩ : Fin 128)
    (by decide) (by decide) (by decide) (by decide)
  rw [hq1, hq2]
  norm_num [pressureIterationCount]

/-! ## The claims -/

/-- Claim C1.  The X-diffusion shader does compute, at every cell (interior
included, with clamp-to-edge neighbour reads)
`next = (prev + a * (left + right + top + bottom)) / (1 + 4a)`; but `a` is
not `dt * viscosity * N * N`: `render()` binds `u_visc` of the X pass to
`SIM_SIZE`, so the pass runs with `a = dt * N * N * N`, which differs from
the claimed `dt * viscosity * N * N`; the Y pass (here at canvas width
1920) likewise runs with `a = dt * viscosity * W * W ≠ dt * viscosity * N * N`. -/
theorem claim1_diffusion_pass :
    (∀ (v : Grid) (x y : Fin 128),
        (diffuseX v x y).r =
          ((v x y).r + aX * ((v (ci ((x.val : ℤ) - 1)) y).r + (v (ci ((x.val : ℤ) + 1)) y).r +
              (v x (ci ((y.val : ℤ) + 1))).r + (v x (ci ((y.val : ℤ) - 1))).r)) /
            (1 + 4 * aX)) ∧
    aX = simDt * (128 : ℚ) * (128 * 128) ∧
    aX ≠ simDt * simVisc * ((128 : ℚ) * 128) ∧
    aY 1920 ≠ simDt * simVisc * ((128 : ℚ) * 128) := by
  refine ⟨?_, ?_, ?_, ?_⟩
  · intro v x y
    rw [diffuseX_apply]
  · norm_num [aX, diffXViscU, diffXSizeU]
  · norm_num [aX, simDt, simVisc, diffXViscU, diffXSizeU]
  · norm_num [aY, simDt, simVisc, diffYViscU, diffYSizeU]

/-- Claim C2.  The `(u_size, u_visc)` pair `render()` supplies to the
X-diffusion pass is `(SIM_SIZE, SIM_SIZE)`, while the pair supplied to the
Y-diffusion pass is `(canvas.width, params.diffusion)`: the pairs are
never equal (the viscosity components already differ), refuting the claim
for every canvas width `W`. -/
theorem claim2_diffusion_uniform_pairs :
    ∀ W : ℚ, (diffXSizeU, diffXViscU) ≠ (diffYSizeU W, diffYViscU) := by
  intro W h
  have h2 : diffXViscU = diffYViscU := congrArg Prod.snd h
  norm_num [diffXViscU, diffYViscU, simVisc] at h2

/-- Claim C3.  Each `project()` performs exactly `pressureIterationCount`
(= the hard-coded 20) Jacobi sweeps; each sweep computes, at every cell,
`next = (divergence + prev[x-1,y] + prev[x+1,y] + prev[x,y-1] + prev[x,y+1]) / 4`
with clamp-to-edge reads; and each sweep writes `jacobiK` of the buffer it
reads into the other buffer, leaves the buffer it reads untouched, and
flips the index. -/
theorem claim3_pressure_solver (s : SimState) :
    opCount Op.psweep (projectL s).2 = pressureIterationCount ∧
    (∀ (d p : Grid) (x y : Fin 128),
        (jacobiK d p x y).r =
          ((d x y).r + (p (ci ((x.val : ℤ) - 1)) y).r + (p (ci ((x.val : ℤ) + 1)) y).r +
              (p x (ci ((y.val : ℤ) - 1))).r + (p x (ci ((y.val : ℤ) + 1))).r) / 4) ∧
    (∀ (d : Grid) (t : (Bool → Grid) × Bool),
        (pLoopBody d t).1 (!t.2) = jacobiK d (t.1 t.2) ∧
        (pLoopBody d t).1 t.2 = t.1 t.2 ∧
        (pLoopBody d t).2 = !t.2) := by
  refine ⟨?_, ?_, ?_⟩
  · rw [projectL_snd]
    decide
  · intro d p x y
    rw [jacobiK_apply]
  · intro d t
    exact ⟨pLoopBody_writes d t, pLoopBody_keeps_read d t, rfl⟩

/-- Claim C4.  After `project()`, the active X-velocity value at every cell
is `velocity - 0.5 * (p[x+1,y] - p[x-1,y]) * N` and the active Y-velocity
value is `velocity - 0.5 * (p[x,y+1] - p[x,y-1]) * N`, where `p` is the
final pressure buffer of the Jacobi loop; each component got its own
double-buffer swap (the previously active buffers are untouched and both
indices flip), and each correction kernel ran exactly once. -/
theorem claim4_velocity_correction (s : SimState) (x y : Fin 128) :
    ((project s).vx ((project s).ix) x y).r =
        (s.vx s.ix x y).r -
          (1 / 2) * ((finalP s (ci ((x.val : ℤ) + 1)) y).r -
            (finalP s (ci ((x.val : ℤ) - 1)) y).r) * 128 ∧
    ((project s).vy ((project s).iy) x y).r =
        (s.vy s.iy x y).r -
          (1 / 2) * ((finalP s x (ci ((y.val : ℤ) + 1))).r -
            (finalP s x (ci ((y.val : ℤ) - 1))).r) * 128 ∧
    (project s).ix = !s.ix ∧ (project s).iy = !s.iy ∧
    (project s).vx s.ix = s.vx s.ix ∧ (project s).vy s.iy = s.vy s.iy ∧
    opCount Op.corrX (projectL s).2 = 1 ∧ opCount Op.corrY (projectL s).2 = 1 := by
  rw [project_eq s]
  refine ⟨?_, ?_, rfl, rfl, ?_, ?_, ?_, ?_⟩
  · show (Function.update s.vx (!s.ix) (correctK true (s.vx s.ix) (finalP s)) (!s.ix) x y).r = _
    rw [upd_at, correctK_x_apply]
  · show (Function.update s.vy (!s.iy) (correctK false (s.vy s.iy) (finalP s)) (!s.iy) x y).r = _
    rw [upd_at, correctK_y_apply]
  · exact upd_other' s.vx s.ix _
  · exact upd_other' s.vy s.iy _
  · rw [projectL_snd]
    decide
  · rw [projectL_snd]
    decide

/-- Claim C5.  The divergence texture written by `project()` is exactly
`divergenceK` of the two currently active velocity buffers — a pure
function of the current velocity state, with no dependence on the previous
divergence contents — and at every cell it holds
`-0.5 * ((velX[x+1,y] - velX[x-1,y]) + (velY[x,y+1] - velY[x,y-1])) / N`
with clamp-to-edge reads, in the red channel, green zero. -/
theorem claim5_divergence (s : SimState) (x y : Fin 128) :
    (project s).dv = divergenceK (s.vx s.ix) (s.vy s.iy) ∧
    (divergenceK (s.vx s.ix) (s.vy s.iy) x y).r =
      -(1 / 2) * (((s.vx s.ix (ci ((x.val : ℤ) + 1)) y).r -
            (s.vx s.ix (ci ((x.val : ℤ) - 1)) y).r) +
          ((s.vy s.iy x (ci ((y.val : ℤ) + 1))).r -
            (s.vy s.iy x (ci ((y.val : ℤ) - 1))).r)) / 128 ∧
    (divergenceK (s.vx s.ix) (s.vy s.iy) x y).g = 0 := by
  refine ⟨?_, ?_, rfl⟩
  · rw [project_eq]
    rfl
  · rw [divergenceK_apply]
    ring

/-- Claim C6.  `project()` starts its Jacobi loop at `index = 0`, so the
first sweep of every projection reads pressure buffer `false`; after a
step, buffer `false` holds exactly the 20-fold Jacobi sweep of the buffer
`false` the step started from — i.e. what the last sweep of that step's
projection wrote (the loop ends at index `false`, an even sweep count),
and diffusion never touches the pressure pair.  Hence every projection
after the first warm-starts from the previous projection's final
pressure. -/
theorem claim6_pressure_warm_start (W : ℚ) (s : SimState) :
    (step W s).p false =
        (jacobiK (divOf (diffused W s)))^[pressureIterationCount] ((diffused W s).p false) ∧
    (diffused W s).p = s.p ∧
    ((pLoopBody (divOf (diffused W s)))^[pressureIterationCount]
        ((diffused W s).p, false)).2 = false := by
  refine ⟨?_, rfl, pIter20_idx _ _⟩
  show (project (diffused W s)).p false = _
  rw [project_eq]
  exact pIter20_slot_false _ _

/-- Claim C7.  One step of the loop of `render()` dispatches exactly the
sequence X-diffusion, Y-diffusion, divergence, 20 pressure sweeps, X
correction, Y correction — nothing in between, and both corrections come
after all the step's pressure sweeps — and a rendered frame runs
`params.iterations` such steps back to back. -/
theorem claim7_step_sequence (W : ℚ) (s : SimState) :
    (stepL W s).2 =
        Op.diffX :: Op.diffY :: Op.divg ::
          (List.replicate pressureIterationCount Op.psweep ++ [Op.corrX, Op.corrY]) ∧
    (frameL W simIterations s).2 =
      List.flatten (List.replicate simIterations
        (Op.diffX :: Op.diffY :: Op.divg ::
          (List.replicate pressureIterationCount Op.psweep ++ [Op.corrX, Op.corrY]))) :=
  ⟨stepL_snd W s, frameL_snd W simIterations s⟩

/-- Claim C8.  After seeding, a cell at Euclidean distance `d` from the
seed centre (`(64, 64) = Math.floor(SIM_SIZE/2)` in both axes) holds
`strength * (1 - d/radius)` in its velocity component when `d < radius`,
and exactly `0` when `d ≥ radius` (the same data is uploaded to both
velocity components). -/
theorem claim8_seed_profile (x y : Fin 128) :
    (seedDist x y < splatRadius →
        seedVal x y = splatStrength * (1 - seedDist x y / splatRadius)) ∧
    (splatRadius ≤ seedDist x y → seedVal x y = 0) := by
  constructor
  · intro h
    simp only [seedVal]
    rw [if_pos h]
  · intro h
    simp only [seedVal]
    rw [if_neg (not_lt.mpr h)]

/-- Witness for C8: at the centre cell `(64, 64)` the distance is
`Real.sqrt 0 = 0 < 20`, and the seeded value is `1 * (1 - 0/20)`. -/
theorem claim8_seed_profile_witness :
    seedDist ⟨64, by norm_num⟩ ⟨64, by norm_num⟩ < splatRadius ∧
      seedVal ⟨64, by norm_num⟩ ⟨64, by norm_num⟩ =
        splatStrength *
          (1 - seedDist ⟨64, by norm_num⟩ ⟨64, by norm_num⟩ / splatRadius) := by
  have hd : seedDist (⟨64, by norm_num⟩ : Fin 128) ⟨64, by norm_num⟩ = 0 := by
    norm_num [seedDist, centerCoord, simSize, Real.sqrt_zero]
  have hlt : seedDist (⟨64, by norm_num⟩ : Fin 128) ⟨64, by norm_num⟩ < splatRadius := by
    rw [hd]
    norm_num [splatRadius]
  exact ⟨hlt, (claim8_seed_profile _ _).1 hlt⟩

/-- Claim C9, as stated, is false.  Its mechanism would make the
rendering read of the Y velocity zero on any state whose green channels
all vanish (which seeding and every kernel output do guarantee); but the
Y correction runs after the Y diffusion and writes the pressure-gradient
term into the red channel the renderer reads.  Concretely, on the
all-green-zero state with X velocity `x * y`, after one step the active
Y-velocity buffer holds `5 ≠ 0` at cell `(64, 64)`. -/
theorem claim9_counterexample :
    greenZero sCross ∧
      ((step 1920 sCross).vy ((step 1920 sCross).iy) (64 : Fin 128) (64 : Fin 128)).r ≠ 0 := by
  refine ⟨sCross_green, ?_⟩
  rw [sCross_rendered]
  norm_num

/-- Claim C9, amended.  On any state with all green channels zero (an
invariant of the program, also preserved here): the Y-diffusion pass
always writes `0` into the red channel of its output (it samples the green
channel of its input, which is zero); hence the Y-velocity value read by
that step's divergence and correction kernels — the active Y buffer after
diffusion — is `0` at every cell; the green channels stay zero after the
step; but the Y-velocity the renderer reads after the step is the
Y-correction output, the pure pressure-gradient term
`-0.5 * (p[x,y+1] - p[x,y-1]) * N`, which need not vanish. -/
theorem claim9_amended (W : ℚ) (s : SimState) (h : greenZero s) :
    (∀ x y : Fin 128, (diffuseY W (s.vy s.iy) x y).r = 0) ∧
    (∀ x y : Fin 128, ((diffused W s).vy ((diffused W s).iy) x y).r = 0) ∧
    greenZero (step W s) ∧
    (∀ x y : Fin 128,
        ((step W s).vy ((step W s).iy) x y).r =
          -((1 / 2) * ((finalP (diffused W s) x (ci ((y.val : ℤ) + 1))).r -
              (finalP (diffused W s) x (ci ((y.val : ℤ) - 1))).r) * 128)) := by
  have hvyG : ∀ a b, ((s.vy s.iy) a b).g = 0 := fun a b => h.2.1 s.iy a b
  have h1 : ∀ x y : Fin 128, (diffuseY W (s.vy s.iy) x y).r = 0 := by
    intro x y
    rw [diffuseY_of_greens W (s.vy s.iy) hvyG x y]
  have h2 : ∀ x y : Fin 128, ((diffused W s).vy ((diffused W s).iy) x y).r = 0 := by
    intro x y
    rw [diffused_vy_active]
    exact h1 x y
  refine ⟨h1, h2, ?_, ?_⟩
  · have hsdvx : ∀ b x y, ((diffused W s).vx b x y).g = 0 :=
      upd_green s.vx (!s.ix) _ h.1 (fun x y => diffuseX_green _ x y)
    have hsdvy : ∀ b x y, ((diffused W s).vy b x y).g = 0 :=
      upd_green s.vy (!s.iy) _ h.2.1 (fun x y => diffuseY_green W _ x y)
    show greenZero (project (diffused W s))
    rw [project_eq]
    refine ⟨?_, ?_, ?_, ?_⟩
    · exact upd_green _ _ _ hsdvx (fun x y => correctK_green _ _ _ x y)
    · exact upd_green _ _ _ hsdvy (fun x y => correctK_green _ _ _ x y)
    · exact pIter_green (divOf (diffused W s)) pressureIterationCount
        ((diffused W s).p, false) h.2.2.1
    · intro x y
      exact divergenceK_green _ _ x y
  · intro x y
    rw [step_eq_project, project_vy_active, correctK_y_r, h2 x y]
    ring

/-- Witness for the amended C9, at the all-zero state, canvas width 1,
cell `(0, 0)`. -/
theorem claim9_amended_witness :
    (diffuseY 1 (sZero.vy sZero.iy) (0 : Fin 128) (0 : Fin 128)).r = 0 :=
  (claim9_amended 1 sZero
      ⟨fun _ _ _ => rfl, fun _ _ _ => rfl, fun _ _ _ => rfl, fun _ _ => rfl⟩).1 0 0

end FluidSim
